import Mathlib

/-
Verification development for the ACTivate event-recommendation core.

Shallow embedding of:
  - src/generate_event_screen.py : EventRecommender.calculate_similarity,
    EventRecommender.recommend_events, filter_events
  - src/setup_database.py : DatabaseManager.register_user_for_event,
    DatabaseManager.unregister_user_from_event,
    DatabaseManager.get_preferences_by_interests

Python floats are modelled as exact rationals (ℚ); the sqlite store is
modelled as explicit lists of records; the JSON decode boundary (fields
stored as serialized string-lists) is modelled as Option (List String),
where `none` stands for a value that fails to decode (JSONDecodeError),
and decoded values are native Lean lists.
-/

namespace ACTivate

/-- An event row, as produced by DatabaseManager.get_all_events
(src/setup_database.py, events table) after the JSON decode of tags. -/
structure Event where
  id : Nat
  title : String
  description : String
  category : String
  tags : List String
  location : String
  date : String
  time : String
  price : ℚ
  organiser_id : Option Nat
  image_url : Option String
deriving DecidableEq, Repr

/-- A user row, as produced by DatabaseManager.get_user_by_id
(src/setup_database.py, users table) after the JSON decode of interests
and preferred_day. -/
structure User where
  id : Nat
  name : String
  category : String
  interests : List String
  preferred_day : Option (List String)
  office_location : Option String
deriving DecidableEq, Repr

/-- A registration row of the user_events table (src/setup_database.py). -/
structure Registration where
  user_id : Nat
  event_id : Nat
  registration_date : String
deriving DecidableEq, Repr

/-- The persisted sqlite state: the three tables. -/
structure Database where
  users : List User
  events : List Event
  registrations : List Registration
deriving DecidableEq, Repr

/-- Python's str.lower(), character by character: Char.toLower mapped
over the character list, written so that it evaluates inside the
kernel. -/
def strLower (s : String) : String := ⟨s.data.map Char.toLower⟩

/-- EventRecommender.calculate_similarity (src/generate_event_screen.py
lines 65-82): empty-input guard, case-fold both lists, Python set
intersection and union modelled as Finset, Jaccard ratio in ℚ. -/
def calculate_similarity (user_interests event_tags : List String) : ℚ :=
  if user_interests = [] ∨ event_tags = [] then 0
  else
    let user_interests_lower := user_interests.map strLower
    let event_tags_lower := event_tags.map strLower
    let common_interests := user_interests_lower.toFinset ∩ event_tags_lower.toFinset
    let union_size := (user_interests_lower.toFinset ∪ event_tags_lower.toFinset).card
    if union_size = 0 then 0
    else (common_interests.card : ℚ) / (union_size : ℚ)

/-- Spec-side definition, following the words of spec §4.2: case-fold
both sets; Jaccard index = size of intersection over size of union;
0.0 if either input is empty. Used to compare the code's
calculate_similarity against the specified algorithm. -/
def jaccard_spec (a b : List String) : ℚ :=
  if a = [] ∨ b = [] then 0
  else
    (((a.map strLower).toFinset ∩ (b.map strLower).toFinset).card : ℚ) /
      (((a.map strLower).toFinset ∪ (b.map strLower).toFinset).card : ℚ)

/-- DatabaseManager.get_user_by_id (src/setup_database.py lines 208-229):
SELECT the first users row with the given id (ids are the PRIMARY KEY),
None if absent. -/
def get_user_by_id (db : Database) (user_id : Nat) : Option User :=
  db.users.find? (fun u => u.id == user_id)

/-- The recommendation candidates in original event order: the early
return [] for a missing user and the accumulation loop of
EventRecommender.recommend_events (src/generate_event_screen.py lines
86-95), keeping an event iff its similarity is strictly above the
threshold. -/
def candidate_recommendations (db : Database) (user_id : Nat) (similarity_threshold : ℚ) :
    List (Event × ℚ) :=
  match get_user_by_id db user_id with
  | none => []
  | some user =>
    db.events.filterMap (fun event =>
      let similarity := calculate_similarity user.interests event.tags
      if similarity_threshold < similarity then some (event, similarity) else none)

/-- One insertion step of a stable descending-by-score sort: x is placed
before the first element whose score does not exceed x's, so that among
equal scores earlier elements stay first. -/
def insertDesc (x : Event × ℚ) : List (Event × ℚ) → List (Event × ℚ)
  | [] => [x]
  | y :: ys => if y.2 ≤ x.2 then x :: y :: ys else y :: insertDesc x ys

/-- Model of Python's recommendations.sort(key=lambda x: x[1],
reverse=True) (src/generate_event_screen.py line 98): list.sort is a
stable sort, here descending by the score component. -/
def sortDesc : List (Event × ℚ) → List (Event × ℚ)
  | [] => []
  | x :: xs => insertDesc x (sortDesc xs)

/-- EventRecommender.recommend_events (src/generate_event_screen.py
lines 84-100); the default similarity_threshold in the source is 0.5. -/
def recommend_events (db : Database) (user_id : Nat) (similarity_threshold : ℚ) :
    List (Event × ℚ) :=
  sortDesc (candidate_recommendations db user_id similarity_threshold)

/-- DatabaseManager.get_event_by_id (src/setup_database.py lines
349-372): SELECT the first events row with the given id, None if
absent. -/
def get_event_by_id (db : Database) (event_id : Nat) : Option Event :=
  db.events.find? (fun e => e.id == event_id)

/-- DatabaseManager.unregister_user_from_event (src/setup_database.py
lines 286-301): DELETE FROM user_events WHERE user_id = ? AND
event_id = ?. A DELETE that matches no row is not an sqlite error, so
the function commits and returns True whether or not any row matched. -/
def unregister_user_from_event (db : Database) (user_id event_id : Nat) :
    Database × Bool :=
  let kept := db.registrations.filter
    (fun r => !(r.user_id == user_id && r.event_id == event_id))
  ({ db with registrations := kept }, true)

/-- DatabaseManager.register_user_for_event (src/setup_database.py lines
267-284): INSERT INTO user_events (user_id, event_id, registration_date).
A duplicate (user_id, event_id) pair violates the UNIQUE constraint,
raising sqlite3.IntegrityError, which the except branch turns into
False with the table unchanged. The FOREIGN KEY clauses declared in
init_database are never enforced at runtime: sqlite keeps foreign keys
off unless PRAGMA foreign_keys=ON is issued, and the code never issues
it, so the INSERT does not check that user_id or event_id exists. now
is the datetime.now().isoformat() timestamp. -/
def register_user_for_event (db : Database) (user_id event_id : Nat)
    (now : String) : Database × Bool :=
  if db.registrations.any (fun r => r.user_id == user_id && r.event_id == event_id)
  then (db, false)
  else
    ({ db with registrations := db.registrations ++ [⟨user_id, event_id, now⟩] },
     true)

/-- A database whose three tables are all empty. -/
def emptyDb : Database := ⟨[], [], []⟩

/-- The user of the worked example in spec §8: interests jazz and
music. -/
def exampleUser : User :=
  ⟨1, "Example User", "Music & Performance", ["jazz", "music"], none, none⟩

/-- The event of the worked example in spec §8: tags music, karaoke,
jazz. -/
def exampleEvent : Event :=
  ⟨4, "Jazz Under the Stars", "Live jazz performance", "Music",
   ["music", "karaoke", "jazz"], "Blu Jaz Clarke Quay", "2025-08-05",
   "2000H - 2100H", 40, some 4, none⟩

/-- A database holding exactly the worked example's user and event. -/
def exampleDb : Database := ⟨[exampleUser], [exampleEvent], []⟩

/-- The current moment, datetime.now() as read by filter_events: the
calendar date plus the fraction of the day already elapsed. -/
structure Now where
  year : Nat
  month : Nat
  day : Nat
  frac : ℚ
deriving DecidableEq, Repr

def isLeapYear (y : Nat) : Bool :=
  y % 4 == 0 && (y % 100 != 0 || y % 400 == 0)

def daysInMonth (y m : Nat) : Nat :=
  if m = 2 then (if isLeapYear y then 29 else 28)
  else if m = 4 ∨ m = 6 ∨ m = 9 ∨ m = 11 then 30
  else 31

/-- Proleptic Gregorian day number of a calendar date, the arithmetic
backing Python's datetime subtraction and comparison. -/
def toOrdinal (y m d : Nat) : Nat :=
  365 * (y - 1) + (y - 1) / 4 - (y - 1) / 100 + (y - 1) / 400 +
    ((List.range (m - 1)).map (fun i => daysInMonth y (i + 1))).sum + d

/-- Split a character list at the dashes (the behaviour of
String.splitOn with separator "-", written by structural recursion so
that it evaluates inside the kernel). -/
def splitOnDash : List Char → List (List Char)
  | [] => [[]]
  | c :: rest =>
    match splitOnDash rest with
    | [] => [[c]]
    | g :: gs => if c = '-' then [] :: g :: gs else (c :: g) :: gs

/-- A nonempty all-digit character list read as a decimal number
(String.toNat? on the field). -/
def digitsToNat (cs : List Char) : Option Nat :=
  if cs ≠ [] ∧ cs.all Char.isDigit then
    some (cs.foldl (fun n c => n * 10 + (c.toNat - 48)) 0)
  else none

/-- datetime.strptime(s, "%Y-%m-%d") as used by filter_events, with
CPython's field widths: the directive %Y matches exactly four digits,
%m and %d one or two digits whose value fits the field (month 1-12,
day 1-31), the dashes are literal and nothing may remain after the
match; the datetime constructor then validates the calendar date
(year at least MINYEAR = 1, day within the month, leap years
included). none models the ValueError raised on anything else. -/
def parseDate (s : String) : Option (Nat × Nat × Nat) :=
  match splitOnDash s.data with
  | [ys, ms, ds] =>
    match digitsToNat ys, digitsToNat ms, digitsToNat ds with
    | some y, some m, some d =>
      if ys.length = 4 ∧ 1 ≤ y ∧
         ms.length ≤ 2 ∧ 1 ≤ m ∧ m ≤ 12 ∧
         ds.length ≤ 2 ∧ 1 ≤ d ∧ d ≤ daysInMonth y m
      then some (y, m, d)
      else none
    | _, _, _ => none
  | _ => none

/-- The per-event test of the dispatch loop of filter_events
(src/generate_event_screen.py lines 175-216): an event is appended to
the output iff this predicate holds. In the Date branch a date that
fails to parse makes the event pass — the except ValueError branch
appends it (fail-open). -/
def eventMatches (now : Now) (filter_type filter_value : String) (event : Event) :
    Bool :=
  if filter_type = "Category" then strLower event.category == strLower filter_value
  else if filter_type = "Location" then strLower event.location == strLower filter_value
  else if filter_type = "Price Range" then
    let price := event.price
    if filter_value = "Free" then decide (price = 0)
    else if filter_value = "$1 - $50" then decide (1 ≤ price ∧ price ≤ 50)
    else if filter_value = "$51 - $100" then decide (51 ≤ price ∧ price ≤ 100)
    else if filter_value = "$100+" then decide (100 < price)
    else false
  else if filter_type = "Tags" then
    (event.tags.map strLower).contains (strLower filter_value)
  else if filter_type = "Date" then
    match parseDate event.date with
    | none => true
    | some (y, m, d) =>
      if filter_value = "Today" then
        decide ((y, m, d) = (now.year, now.month, now.day))
      else if filter_value = "This Week" then
        let days_diff : ℤ :=
          ⌊(toOrdinal y m d : ℚ) - ((toOrdinal now.year now.month now.day : ℚ) + now.frac)⌋
        decide (0 ≤ days_diff ∧ days_diff ≤ 7)
      else if filter_value = "This Month" then
        decide (m = now.month ∧ y = now.year)
      else if filter_value = "Future" then
        decide ((toOrdinal now.year now.month now.day : ℚ) + now.frac < (toOrdinal y m d : ℚ))
      else false
  else false

/-- filter_events (src/generate_event_screen.py lines 169-218):
pass-through when either selector is All, otherwise keep the events
satisfying the dispatch test. -/
def filter_events (now : Now) (events : List Event) (filter_type filter_value : String) :
    List Event :=
  if filter_type = "All" ∨ filter_value = "All" then events
  else events.filter (eventMatches now filter_type filter_value)

/-- A concrete current moment for witnesses. -/
def now0 : Now := ⟨2025, 7, 20, 0⟩

/-- One row of SELECT interests, preferred_day, office_location FROM
users, at the JSON decode boundary: interests is none when the stored
interests string fails to decode (the except JSONDecodeError: continue
branch of get_preferences_by_interests), preferred_day is none when the
stored day-list is NULL, empty or fails to decode (all treated as the
empty list), office_location is the stored value (possibly NULL). -/
structure PrefRow where
  interests : Option (List String)
  preferred_day : Option (List String)
  office_location : Option String
deriving DecidableEq, Repr

/-- The day list a row contributes: empty for a NULL or malformed
stored list (fail-open), the decoded list otherwise. -/
def rowDays (r : PrefRow) : List String := r.preferred_day.getD []

/-- Whether a row's user counts for the queried interest: the stored
interests decoded and the interest is among them (Python's
`interest not in user_interests: continue` test, negated). -/
def rowMatches (interest : String) (r : PrefRow) : Bool :=
  match r.interests with
  | none => false
  | some user_interests => user_interests.contains interest

/-- The per-row body of the loop in get_preferences_by_interests
(src/setup_database.py lines 443-458): skip a row whose interests do
not decode or do not contain the queried interest; otherwise increment
day_ctr once for each of the row's preferred days and office_ctr once
for the row's office. The two Counter objects are modelled as
functions to ℕ. -/
def prefStep (interest : String)
    (ctrs : (String → Nat) × (Option String → Nat)) (row : PrefRow) :
    (String → Nat) × (Option String → Nat) :=
  match row.interests with
  | none => ctrs
  | some user_interests =>
    if user_interests.contains interest then
      ((rowDays row).foldl
          (fun day_ctr d => fun x => if x = d then day_ctr x + 1 else day_ctr x)
          ctrs.1,
       fun x => if x = row.office_location then ctrs.2 x + 1 else ctrs.2 x)
    else ctrs

/-- The counters computed for one queried interest by
get_preferences_by_interests: the scan over all user rows starting from
empty counters. -/
def interestCounters (rows : List PrefRow) (interest : String) :
    (String → Nat) × (Option String → Nat) :=
  rows.foldl (prefStep interest) (fun _ => 0, fun _ => 0)

/-- DatabaseManager.get_preferences_by_interests (src/setup_database.py
lines 419-463): one (preferred_day, office_location) counter pair per
queried interest. -/
def get_preferences_by_interests (rows : List PrefRow)
    (interest_list : List String) :
    List (String × ((String → Nat) × (Option String → Nat))) :=
  interest_list.map (fun interest => (interest, interestCounters rows interest))

lemma lower_toFinset_nonempty {l : List String} (h : l ≠ []) :
    (l.map strLower).toFinset.Nonempty := by
  rcases List.exists_mem_of_ne_nil l h with ⟨x, hx⟩
  exact ⟨strLower x, List.mem_toFinset.mpr (List.mem_map_of_mem _ hx)⟩

lemma union_card_pos {a b : List String} (h : a ≠ []) :
    0 < ((a.map strLower).toFinset ∪ (b.map strLower).toFinset).card := by
  apply Finset.card_pos.mpr
  exact (lower_toFinset_nonempty h).mono Finset.subset_union_left

/-- C1. calculate_similarity agrees with the Jaccard index of the two
case-folded sets, returns 0 when either input is empty, and always lies
in the closed interval [0,1]. -/
theorem c1_similarity_jaccard (ui et : List String) :
    calculate_similarity ui et = jaccard_spec ui et ∧
    calculate_similarity [] et = 0 ∧
    calculate_similarity ui [] = 0 ∧
    0 ≤ calculate_similarity ui et ∧
    calculate_similarity ui et ≤ 1 := by
  refine ⟨?_, by simp [calculate_similarity], by simp [calculate_similarity], ?_, ?_⟩
  · unfold calculate_similarity jaccard_spec
    by_cases h : ui = [] ∨ et = []
    · simp [h]
    · have hu : ui ≠ [] := fun hh => h (Or.inl hh)
      have hpos := union_card_pos (b := et) hu
      simp only [if_neg h]
      rw [if_neg hpos.ne']
  · unfold calculate_similarity
    by_cases h : ui = [] ∨ et = []
    · simp [h]
    · simp only [if_neg h]
      split
      · exact le_refl 0
      · positivity
  · unfold calculate_similarity
    by_cases h : ui = [] ∨ et = []
    · simp [h]
    · have hu : ui ≠ [] := fun hh => h (Or.inl hh)
      have hpos := union_card_pos (b := et) hu
      simp only [if_neg h]
      rw [if_neg hpos.ne']
      rw [div_le_one (by exact_mod_cast hpos)]
      exact_mod_cast Finset.card_le_card Finset.inter_subset_union

lemma mem_insertDesc {p x : Event × ℚ} {l : List (Event × ℚ)} :
    p ∈ insertDesc x l ↔ p = x ∨ p ∈ l := by
  induction l with
  | nil => simp [insertDesc]
  | cons y ys ih =>
    simp only [insertDesc]
    split
    · simp
    · simp only [List.mem_cons, ih]
      tauto

lemma mem_sortDesc {p : Event × ℚ} {l : List (Event × ℚ)} :
    p ∈ sortDesc l ↔ p ∈ l := by
  induction l with
  | nil => simp [sortDesc]
  | cons x xs ih => simp [sortDesc, mem_insertDesc, ih]

lemma pairwise_insertDesc {x : Event × ℚ} {l : List (Event × ℚ)}
    (h : l.Pairwise (fun a b => b.2 ≤ a.2)) :
    (insertDesc x l).Pairwise (fun a b => b.2 ≤ a.2) := by
  induction l with
  | nil => simp [insertDesc]
  | cons y ys ih =>
    rcases List.pairwise_cons.mp h with ⟨hy, hys⟩
    simp only [insertDesc]
    split
    · rename_i hle
      refine List.pairwise_cons.mpr ⟨?_, h⟩
      intro z hz
      rcases List.mem_cons.mp hz with rfl | hz
      · exact hle
      · exact le_trans (hy z hz) hle
    · rename_i hle
      have hlt : x.2 < y.2 := lt_of_not_le hle
      refine List.pairwise_cons.mpr ⟨?_, ih hys⟩
      intro z hz
      rcases mem_insertDesc.mp hz with rfl | hz
      · exact le_of_lt hlt
      · exact hy z hz

lemma pairwise_sortDesc (l : List (Event × ℚ)) :
    (sortDesc l).Pairwise (fun a b => b.2 ≤ a.2) := by
  induction l with
  | nil => simp [sortDesc]
  | cons x xs ih => exact pairwise_insertDesc ih

lemma filter_insertDesc (x : Event × ℚ) (l : List (Event × ℚ)) (q : ℚ) :
    (insertDesc x l).filter (fun p => decide (p.2 = q)) =
      if x.2 = q then x :: l.filter (fun p => decide (p.2 = q))
      else l.filter (fun p => decide (p.2 = q)) := by
  induction l with
  | nil =>
    by_cases hx : x.2 = q <;> simp [insertDesc, List.filter, hx]
  | cons y ys ih =>
    simp only [insertDesc]
    by_cases hxy : y.2 ≤ x.2
    · rw [if_pos hxy]
      by_cases hx : x.2 = q <;> simp [List.filter_cons, hx]
    · rw [if_neg hxy]
      have hlt : x.2 < y.2 := lt_of_not_le hxy
      by_cases hx : x.2 = q
      · have hy : ¬ y.2 = q := by
          rw [← hx]
          exact (ne_of_gt hlt)
        simp [List.filter_cons, hy, ih, hx]
      · by_cases hy : y.2 = q <;> simp [List.filter_cons, hy, ih, hx]

lemma filter_sortDesc (l : List (Event × ℚ)) (q : ℚ) :
    (sortDesc l).filter (fun p => decide (p.2 = q)) =
      l.filter (fun p => decide (p.2 = q)) := by
  induction l with
  | nil => rfl
  | cons x xs ih =>
    simp only [sortDesc, filter_insertDesc, List.filter_cons, ih]
    by_cases hx : x.2 = q <;> simp [hx]

/-- C2. Every pair returned by recommend_events has score strictly above
the threshold; the output is sorted in descending score order; and for
every score value the pairs carrying that score appear in the same order
as in the unsorted candidate list (which follows the original event
order), i.e. the sort is stable. -/
theorem c2_recommend_threshold_sorted_stable (db : Database) (user_id : Nat)
    (similarity_threshold : ℚ) :
    (∀ p ∈ recommend_events db user_id similarity_threshold,
        similarity_threshold < p.2) ∧
    (recommend_events db user_id similarity_threshold).Pairwise
        (fun a b => b.2 ≤ a.2) ∧
    (∀ q : ℚ,
        (recommend_events db user_id similarity_threshold).filter
            (fun p => decide (p.2 = q)) =
          (candidate_recommendations db user_id similarity_threshold).filter
            (fun p => decide (p.2 = q))) := by
  refine ⟨?_, pairwise_sortDesc _, fun q => filter_sortDesc _ q⟩
  intro p hp
  have hp' : p ∈ candidate_recommendations db user_id similarity_threshold :=
    mem_sortDesc.mp hp
  unfold candidate_recommendations at hp'
  cases hfind : get_user_by_id db user_id with
  | none => rw [hfind] at hp'; simp at hp'
  | some user =>
    rw [hfind] at hp'
    rcases List.mem_filterMap.mp hp' with ⟨e, _, he⟩
    by_cases hth : similarity_threshold < calculate_similarity user.interests e.tags
    · rw [if_pos hth] at he
      cases he
      exact hth
    · rw [if_neg hth] at he
      cases he

lemma length_filter_not_add (l : List Registration) (p : Registration → Bool) :
    l.length = (l.filter (fun r => !(p r))).length + (l.filter p).length := by
  induction l with
  | nil => rfl
  | cons r rs ih =>
    by_cases h : p r <;> simp [List.filter_cons, h, ih] <;> omega

/-- C3 counterexample. On a database with no registrations at all, no
Registration matches the pair (1, 1), yet unregister_user_from_event
returns true — the claim demands false when no matching row existed. -/
theorem c3_counterexample :
    emptyDb.registrations.filter
        (fun r => r.user_id == 1 && r.event_id == 1) = [] ∧
    (unregister_user_from_event emptyDb 1 1).2 = true :=
  ⟨rfl, rfl⟩

/-- C3 amended. unregister_user_from_event always returns true (the SQL
DELETE succeeds even when it matches no row); it removes exactly the
registrations of the given (user, event) pair — at most one under the
uniqueness constraint — keeping every other row: the new table is the
old one minus the matching rows, and the old length is the new length
plus the number of matching rows (zero when none existed). -/
theorem c3_amended_unregister (db : Database) (user_id event_id : Nat) :
    (unregister_user_from_event db user_id event_id).2 = true ∧
    (unregister_user_from_event db user_id event_id).1.registrations =
      db.registrations.filter
        (fun r => !(r.user_id == user_id && r.event_id == event_id)) ∧
    db.registrations.length =
      (unregister_user_from_event db user_id event_id).1.registrations.length +
        (db.registrations.filter
          (fun r => r.user_id == user_id && r.event_id == event_id)).length :=
  ⟨rfl, rfl, length_filter_not_add db.registrations _⟩

/-- C4 failing input, evaluated. On a database whose user and event
tables are empty, ids 999/999 refer to no record, yet
register_user_for_event inserts the row and returns true, because the
declared FOREIGN KEYs are never enabled (no PRAGMA foreign_keys=ON);
the claim (and the declared schema) require false here. -/
theorem c4_register_fk_not_enforced :
    get_user_by_id emptyDb 999 = none ∧
    get_event_by_id emptyDb 999 = none ∧
    (register_user_for_event emptyDb 999 999 "2025-07-01T00:00:00").2 = true ∧
    (register_user_for_event emptyDb 999 999 "2025-07-01T00:00:00").1.registrations =
      [⟨999, 999, "2025-07-01T00:00:00"⟩] :=
  ⟨rfl, rfl, rfl, rfl⟩

lemma recommend_example :
    recommend_events exampleDb 1 (1/2) = [(exampleEvent, 2/3)] := by
  have hu : get_user_by_id exampleDb 1 = some exampleUser := rfl
  have hsim : calculate_similarity ["jazz", "music"] ["music", "karaoke", "jazz"]
      = 2/3 := rfl
  have hc : candidate_recommendations exampleDb 1 (1/2) = [(exampleEvent, 2/3)] := by
    unfold candidate_recommendations
    rw [hu]
    show List.filterMap _ [exampleEvent] = _
    simp only [List.filterMap_cons, List.filterMap_nil]
    rw [show exampleUser.interests = ["jazz", "music"] from rfl,
        show exampleEvent.tags = ["music", "karaoke", "jazz"] from rfl, hsim]
    rw [if_pos (by norm_num : (1:ℚ)/2 < 2/3)]
  show sortDesc (candidate_recommendations exampleDb 1 (1/2)) = _
  rw [hc]
  rfl

/-- C2 witness: the score of the concrete pair returned on the example
database is strictly above the threshold 0.5, by the theorem applied to
that member of the output. -/
theorem c2_recommend_threshold_sorted_stable_witness :
    (1:ℚ)/2 < ((exampleEvent, (2:ℚ)/3) : Event × ℚ).2 :=
  (c2_recommend_threshold_sorted_stable exampleDb 1 (1/2)).1 (exampleEvent, 2/3)
    (by rw [recommend_example]; exact List.Mem.head _)

/-- C5 counterexample. For interests jazz, music and tags music,
karaoke, jazz the case-folded union has size 3 (not 4) and the
similarity is 2/3 (not 0.5); at threshold 0.5 the event is included
(not excluded) in the recommendation output. -/
theorem c5_counterexample :
    ((["jazz", "music"].map strLower).toFinset ∪
        (["music", "karaoke", "jazz"].map strLower).toFinset).card = 3 ∧
    calculate_similarity ["jazz", "music"] ["music", "karaoke", "jazz"] = 2/3 ∧
    ¬ calculate_similarity ["jazz", "music"] ["music", "karaoke", "jazz"] = 1/2 ∧
    recommend_events exampleDb 1 (1/2) = [(exampleEvent, 2/3)] := by
  refine ⟨by decide, by rfl, ?_, recommend_example⟩
  have h : calculate_similarity ["jazz", "music"] ["music", "karaoke", "jazz"] = 2/3 := by
    rfl
  rw [h]
  norm_num

/-- C5 amended. For user interests jazz, music and event tags music,
karaoke, jazz: the case-folded union has size 3 and the intersection
size 2, so the similarity is 2/3; since 2/3 is strictly greater than
0.5, at threshold 0.5 this event is included in the recommendation
output. -/
theorem c5_amended_example :
    ((["jazz", "music"].map strLower).toFinset ∩
        (["music", "karaoke", "jazz"].map strLower).toFinset).card = 2 ∧
    ((["jazz", "music"].map strLower).toFinset ∪
        (["music", "karaoke", "jazz"].map strLower).toFinset).card = 3 ∧
    calculate_similarity ["jazz", "music"] ["music", "karaoke", "jazz"] = 2/3 ∧
    (1:ℚ)/2 < 2/3 ∧
    recommend_events exampleDb 1 (1/2) = [(exampleEvent, 2/3)] := by
  exact ⟨by decide, by decide, by rfl, by norm_num, recommend_example⟩

/-- C7. filter_events is the identity whenever the filter type or the
filter value is All. -/
theorem c7_filter_all_identity (now : Now) (events : List Event)
    (filter_type filter_value : String)
    (h : filter_type = "All" ∨ filter_value = "All") :
    filter_events now events filter_type filter_value = events := by
  unfold filter_events
  rw [if_pos h]

/-- C7 witness: the identity at a concrete input. -/
theorem c7_filter_all_identity_witness :
    filter_events now0 [exampleEvent] "All" "All" = [exampleEvent] :=
  c7_filter_all_identity now0 [exampleEvent] "All" "All" (Or.inl rfl)

/-- C10. A filter type other than All and the five recognized ones,
with a filter value other than All, yields the empty list: the dispatch
loop appends nothing. -/
theorem c10_unknown_filter_empty (now : Now) (events : List Event)
    (filter_type filter_value : String)
    (hft : filter_type ≠ "All") (hfv : filter_value ≠ "All")
    (h1 : filter_type ≠ "Category") (h2 : filter_type ≠ "Location")
    (h3 : filter_type ≠ "Price Range") (h4 : filter_type ≠ "Tags")
    (h5 : filter_type ≠ "Date") :
    filter_events now events filter_type filter_value = [] := by
  unfold filter_events
  rw [if_neg (by tauto)]
  have hm : ∀ e, eventMatches now filter_type filter_value e = false := by
    intro e
    unfold eventMatches
    rw [if_neg h1, if_neg h2, if_neg h3, if_neg h4, if_neg h5]
  induction events with
  | nil => rfl
  | cons e es ih => rw [List.filter_cons, hm e]; exact ih

/-- C10 witness: an unrecognized filter type at a concrete input. -/
theorem c10_unknown_filter_empty_witness :
    filter_events now0 [exampleEvent] "Organiser" "4" = [] :=
  c10_unknown_filter_empty now0 [exampleEvent] "Organiser" "4"
    (by decide) (by decide) (by decide) (by decide) (by decide) (by decide) (by decide)

/-- C6. The Price Range filter keeps an event exactly when its price
falls in the selected band: Free iff price = 0, one band iff
1 ≤ price ≤ 50, one iff 51 ≤ price ≤ 100, and the last iff price > 100;
an event whose price lies strictly between 0 and 1 is kept by none of
the four bands. -/
theorem c6_price_bands (now : Now) (events : List Event) (e : Event)
    (h0 : 0 < e.price) (h1 : e.price < 1) :
    filter_events now events "Price Range" "Free" =
      events.filter (fun x => decide (x.price = 0)) ∧
    filter_events now events "Price Range" "$1 - $50" =
      events.filter (fun x => decide (1 ≤ x.price ∧ x.price ≤ 50)) ∧
    filter_events now events "Price Range" "$51 - $100" =
      events.filter (fun x => decide (51 ≤ x.price ∧ x.price ≤ 100)) ∧
    filter_events now events "Price Range" "$100+" =
      events.filter (fun x => decide (100 < x.price)) ∧
    filter_events now [e] "Price Range" "Free" = [] ∧
    filter_events now [e] "Price Range" "$1 - $50" = [] ∧
    filter_events now [e] "Price Range" "$51 - $100" = [] ∧
    filter_events now [e] "Price Range" "$100+" = [] := by
  refine ⟨rfl, rfl, rfl, rfl, ?_, ?_, ?_, ?_⟩
  · show List.filter (fun x => decide (x.price = 0)) [e] = []
    simp only [List.filter_cons, List.filter_nil]
    rw [decide_eq_false (ne_of_gt h0)]
    rfl
  · show List.filter (fun x => decide (1 ≤ x.price ∧ x.price ≤ 50)) [e] = []
    simp only [List.filter_cons, List.filter_nil]
    rw [decide_eq_false (by rintro ⟨ha, -⟩; linarith)]
    rfl
  · show List.filter (fun x => decide (51 ≤ x.price ∧ x.price ≤ 100)) [e] = []
    simp only [List.filter_cons, List.filter_nil]
    rw [decide_eq_false (by rintro ⟨ha, -⟩; linarith)]
    rfl
  · show List.filter (fun x => decide (100 < x.price)) [e] = []
    simp only [List.filter_cons, List.filter_nil]
    rw [decide_eq_false (by intro ha; linarith)]
    rfl

/-- C6 witness: a concrete event priced strictly between 0 and 1, in
the gap of the bands. -/
theorem c6_price_bands_witness :
    filter_events now0 [] "Price Range" "Free" = [] ∧
    (0:ℚ) < (1:ℚ)/2 ∧ (1:ℚ)/2 < 1 ∧
    filter_events now0
        [⟨7, "Gap", "gap-priced", "Misc", [], "Somewhere", "2025-07-21", "0900H",
          1/2, none, none⟩]
        "Price Range" "$1 - $50" = [] := by
  refine ⟨?_, by norm_num, by norm_num, ?_⟩
  · exact (c6_price_bands now0 []
      ⟨7, "Gap", "gap-priced", "Misc", [], "Somewhere", "2025-07-21", "0900H",
        1/2, none, none⟩ (by norm_num) (by norm_num)).1
  · exact (c6_price_bands now0 []
      ⟨7, "Gap", "gap-priced", "Misc", [], "Somewhere", "2025-07-21", "0900H",
        1/2, none, none⟩ (by norm_num) (by norm_num)).2.2.2.2.2.1

lemma eventMatches_date_failopen (now : Now) (filter_value : String) (e : Event)
    (hd : parseDate e.date = none) :
    eventMatches now "Date" filter_value e = true := by
  unfold eventMatches
  rw [if_neg (by decide : ¬ ("Date" : String) = "Category"),
      if_neg (by decide : ¬ ("Date" : String) = "Location"),
      if_neg (by decide : ¬ ("Date" : String) = "Price Range"),
      if_neg (by decide : ¬ ("Date" : String) = "Tags"),
      if_pos (rfl : ("Date" : String) = "Date"), hd]

/-- C8. Under the Date filter, an event whose stored date string does
not parse as a YYYY-MM-DD calendar date is kept in the output whatever
the selected bucket is: the except branch appends it (fail-open), and
the embedding is a total function, so no error is possible. -/
theorem c8_date_failopen (now : Now) (events : List Event)
    (filter_value : String) (e : Event)
    (he : e ∈ events) (hd : parseDate e.date = none) :
    e ∈ filter_events now events "Date" filter_value := by
  unfold filter_events
  split
  · exact he
  · exact List.mem_filter.mpr ⟨he, eventMatches_date_failopen now filter_value e hd⟩

/-- C8 witness: an event dated not-a-date passes the Today bucket. -/
theorem c8_date_failopen_witness :
    (⟨9, "Bad", "bad date", "Misc", [], "Somewhere", "not-a-date", "0900H",
        0, none, none⟩ : Event) ∈
      filter_events now0
        [⟨9, "Bad", "bad date", "Misc", [], "Somewhere", "not-a-date", "0900H",
          0, none, none⟩]
        "Date" "Today" :=
  c8_date_failopen now0 _ "Today" _ (List.Mem.head _) rfl

lemma dayFold_apply (days : List String) (day_ctr : String → Nat) (x : String) :
    (days.foldl (fun dc d => fun y => if y = d then dc y + 1 else dc y) day_ctr) x
      = day_ctr x + days.count x := by
  induction days generalizing day_ctr with
  | nil => simp
  | cons d ds ih =>
    rw [List.foldl_cons, ih]
    by_cases h : x = d
    all_goals simp [h, List.count_cons]
    all_goals omega

lemma interestCounters_day_go (interest x : String) (rows : List PrefRow)
    (init : (String → Nat) × (Option String → Nat)) :
    (rows.foldl (prefStep interest) init).1 x =
      init.1 x + ((rows.filter (rowMatches interest)).map
        (fun r => (rowDays r).count x)).sum := by
  induction rows generalizing init with
  | nil => simp
  | cons r rs ih =>
    rw [List.foldl_cons]
    cases hri : r.interests with
    | none =>
      have hb : rowMatches interest r = false := by simp [rowMatches, hri]
      have hstep : prefStep interest init r = init := by simp [prefStep, hri]
      have hfil : List.filter (rowMatches interest) (r :: rs) =
          List.filter (rowMatches interest) rs := by
        rw [List.filter_cons, if_neg (by rw [hb]; exact Bool.false_ne_true)]
      rw [hstep, hfil, ih]
    | some ui =>
      by_cases hc : ui.contains interest
      · have hb : rowMatches interest r = true := by
          simpa [rowMatches, hri] using hc
        have hstep : prefStep interest init r =
            ((rowDays r).foldl
                (fun dc d => fun y => if y = d then dc y + 1 else dc y) init.1,
             fun y => if y = r.office_location then init.2 y + 1 else init.2 y) := by
          simp only [prefStep, hri]
          rw [if_pos hc]
        have hfil : List.filter (rowMatches interest) (r :: rs) =
            r :: List.filter (rowMatches interest) rs := by
          rw [List.filter_cons, if_pos hb]
        rw [hstep, hfil, ih]
        simp [dayFold_apply]
        omega
      · have hb : rowMatches interest r = false := by
          simpa [rowMatches, hri] using hc
        have hstep : prefStep interest init r = init := by
          simp only [prefStep, hri]
          rw [if_neg hc]
        have hfil : List.filter (rowMatches interest) (r :: rs) =
            List.filter (rowMatches interest) rs := by
          rw [List.filter_cons, if_neg (by rw [hb]; exact Bool.false_ne_true)]
        rw [hstep, hfil, ih]

lemma interestCounters_office_go (interest : String) (o : Option String)
    (rows : List PrefRow) (init : (String → Nat) × (Option String → Nat)) :
    (rows.foldl (prefStep interest) init).2 o =
      init.2 o + ((rows.filter (rowMatches interest)).filter
        (fun r => r.office_location == o)).length := by
  induction rows generalizing init with
  | nil => simp
  | cons r rs ih =>
    rw [List.foldl_cons]
    cases hri : r.interests with
    | none =>
      have hb : rowMatches interest r = false := by simp [rowMatches, hri]
      have hstep : prefStep interest init r = init := by simp [prefStep, hri]
      have hfil : List.filter (rowMatches interest) (r :: rs) =
          List.filter (rowMatches interest) rs := by
        rw [List.filter_cons, if_neg (by rw [hb]; exact Bool.false_ne_true)]
      rw [hstep, hfil, ih]
    | some ui =>
      by_cases hc : ui.contains interest
      · have hb : rowMatches interest r = true := by
          simpa [rowMatches, hri] using hc
        have hstep : prefStep interest init r =
            ((rowDays r).foldl
                (fun dc d => fun y => if y = d then dc y + 1 else dc y) init.1,
             fun y => if y = r.office_location then init.2 y + 1 else init.2 y) := by
          simp only [prefStep, hri]
          rw [if_pos hc]
        have hfil : List.filter (rowMatches interest) (r :: rs) =
            r :: List.filter (rowMatches interest) rs := by
          rw [List.filter_cons, if_pos hb]
        rw [hstep, hfil, ih]
        by_cases ho : o = r.office_location
        · rw [List.filter_cons, if_pos (by simp [ho])]
          simp only [List.length_cons]
          simp [ho]
          omega
        · rw [List.filter_cons,
              if_neg (by simp only [beq_iff_eq]; exact fun hh => ho hh.symm)]
          simp [ho]
      · have hb : rowMatches interest r = false := by
          simpa [rowMatches, hri] using hc
        have hstep : prefStep interest init r = init := by
          simp only [prefStep, hri]
          rw [if_neg hc]
        have hfil : List.filter (rowMatches interest) (r :: rs) =
            List.filter (rowMatches interest) rs := by
          rw [List.filter_cons, if_neg (by rw [hb]; exact Bool.false_ne_true)]
        rw [hstep, hfil, ih]

/-- C9. For a queried interest, the preferred-day counter at any day d
equals the total number of occurrences of d in the day lists of exactly
the rows whose decoded interests contain the interest (one increment
per preferred day, so n preferred days give n increments), and the
office counter at any location equals the number of such rows with that
office (exactly one increment per matching user). A row whose stored
day-list is malformed (rowDays = []) contributes no day increment yet
one office increment, exhibited by the singleton-row conjuncts; the
embedding is a total function, so the operation cannot raise. -/
theorem c9_aggregate_counts (rows : List PrefRow) (interest_list : List String)
    (interest x : String) (o : Option String) :
    get_preferences_by_interests rows interest_list =
      interest_list.map (fun i => (i, interestCounters rows i)) ∧
    (interestCounters rows interest).1 x =
      ((rows.filter (rowMatches interest)).map
        (fun r => (rowDays r).count x)).sum ∧
    (interestCounters rows interest).2 o =
      ((rows.filter (rowMatches interest)).filter
        (fun r => r.office_location == o)).length ∧
    (interestCounters [⟨some [interest], none, o⟩] interest).1 x = 0 ∧
    (interestCounters [⟨some [interest], none, o⟩] interest).2 o = 1 := by
  refine ⟨rfl, ?_, ?_, ?_, ?_⟩
  · simpa using interestCounters_day_go interest x rows (fun _ => 0, fun _ => 0)
  · simpa using interestCounters_office_go interest o rows (fun _ => 0, fun _ => 0)
  · simp [interestCounters, prefStep, rowDays]
  · simp [interestCounters, prefStep, rowDays]

end ACTivate
